import Mathlib

/-!
Shallow embedding of the `vaultsync` package: the secret distribution and
lease-renewal engine.  Pure data flow (registration, dispatch, refresh
passes, configuration loading, authentication bootstrap) is translated into
executable Lean functions; the external collaborators (filesystem, vault
client, timers, channels) are modelled as oracles passed in as data.
Go panics (nil-pointer dereferences, failed type assertions) are modelled
as an explicit `panicked` outcome.
-/

set_option autoImplicit false

namespace VaultSync

/-- Opaque field values forwarded to consumers (`interface{}` in the source);
the engine never inspects them. -/
inductive GoVal
  | str (s : String)
  | num (n : Int)
  | boolean (b : Bool)
  | nil
deriving DecidableEq

/-- Entries of a secret's top-level `Data` map: either a plain value or a
nested `map[string]interface{}` (the shape the source's type assertion
`secret.Data["data"].(map[string]interface{})` requires). -/
inductive DataVal
  | plain (v : GoVal)
  | fieldMap (m : List (String × GoVal))
deriving DecidableEq

/-- Secret locations are opaque strings (vault paths). -/
abbrev Location := String

/-- Consumer handles: a `SecretReceiver` is identified by an abstract id;
its `UpdateSecret` callback invocation is recorded as an event. -/
abbrev SecretReceiver := Nat

/-- The `vault.Secret` returned by `Logical().Read`: its `Data` map. -/
structure VSecret where
  data : List (String × DataVal)
deriving DecidableEq

/-- Outcome of `client.Logical().Read(path)`:
`failed` is `(nil, err)`, `notFound` is `(nil, nil)`,
`found` is a non-nil secret. -/
inductive ReadResult
  | failed
  | notFound
  | found (s : VSecret)
deriving DecidableEq

/-- The store oracle: what a read of each location returns. -/
abbrev Store := Location → ReadResult

/-- Observable events of a refresh pass: a store read of a path, and an
invocation of a receiver's `UpdateSecret(id, fieldName, value)` callback. -/
inductive Event
  | read (path : Location)
  | update (receiver : SecretReceiver) (id : Location) (fieldName : String) (value : GoVal)
deriving DecidableEq

/-- The `vaultConfig` block of the configuration file. -/
structure VaultConfig where
  server : String
  authMethod : String
  username : String
  password : String
  renewSecretsPeriod : Int
deriving DecidableEq

/-- The `config` struct wrapping the vault block. -/
structure Config where
  vault : VaultConfig
deriving DecidableEq

/-- The `SecretSync` struct: the receivers map, embedded as an association
list from location to the ordered list of registered receivers (one
admissible iteration order of the Go map). -/
structure SecretSync where
  receivers : List (Location × List SecretReceiver)
deriving DecidableEq

/-- `newSecretSync`: an empty receivers map. -/
def newSecretSync : SecretSync := ⟨[]⟩

/-- Go map indexing `receivers[id]`: a missing key yields the empty (nil)
slice. -/
def lookupReceivers : List (Location × List SecretReceiver) → Location → List SecretReceiver
  | [], _ => []
  | p :: rest, id => if p.1 = id then p.2 else lookupReceivers rest id

/-- Go map assignment `receivers[id] = append(receivers[id], r)` on the
association list: update the entry in place, or create it when absent. -/
def mapUpdate : List (Location × List SecretReceiver) → Location → SecretReceiver →
    List (Location × List SecretReceiver)
  | [], id, r => [(id, [r])]
  | p :: rest, id, r =>
    if p.1 = id then (p.1, p.2 ++ [r]) :: rest else p :: mapUpdate rest id r

/-- `RegisterUpdateSecret` from the source: append the receiver to the
location's list, creating the list when the location is absent. -/
def RegisterUpdateSecret (s : SecretSync) (id : Location) (receiver : SecretReceiver) :
    SecretSync :=
  ⟨mapUpdate s.receivers id receiver⟩

/-- `setSecret` from the source: call `UpdateSecret(id, fieldName, value)` on
every receiver registered for `id`, in list (registration) order.  The
return value is the list of callback invocations performed. -/
def setSecret (s : SecretSync) (id : Location) (fieldName : String) (value : GoVal) :
    List Event :=
  (lookupReceivers s.receivers id).map (fun r => Event.update r id fieldName value)

/-- The per-location fan-out performed by `renewSecretPaths`'s inner loop
(the spec's `Dispatch(location, fields)`): for every field of the secret's
data map, run `setSecret`. -/
def dispatchFields (s : SecretSync) (id : Location) (fields : List (String × GoVal)) :
    List Event :=
  fields.flatMap (fun kv => setSecret s id kv.1 kv.2)

/-- Go map indexing on a secret's `Data` map. -/
def lookupData : List (String × DataVal) → String → Option DataVal
  | [], _ => none
  | p :: rest, k => if p.1 = k then some p.2 else lookupData rest k

/-- The source expression `secret.Data["data"].(map[string]interface{})`:
`some` when the entry exists and is a field map, `none` when the type
assertion would panic (missing key or non-map value). -/
def dataMap (sec : VSecret) : Option (List (String × GoVal)) :=
  match lookupData sec.data "data" with
  | some (DataVal.fieldMap m) => some m
  | _ => none

/-- The `Agent` struct, restricted to the fields the engine reads:
the loaded configuration, the receivers structure, and the store client
(as a read oracle). -/
structure Agent where
  config : Config
  secretSync : SecretSync
  store : Store

/-- Outcome of one refresh pass: either it ran to completion with the given
event trace, or a Go panic aborted it after the given prefix of events. -/
inductive PassResult
  | panicked (events : List Event)
  | completed (events : List Event)
deriving DecidableEq

/-- Body of one iteration of `renewSecretPaths` for a single path:
`secret, _ := Read(path)` discards the error, then `secret.Data["data"]` is
dereferenced and type-asserted.  `none` models the nil-pointer dereference
panic when the read failed or found nothing, and the type-assertion panic
when the data entry is not a field map; `some` yields the dispatch events. -/
def renewOnePath (s : SecretSync) (store : Store) (path : Location) : Option (List Event) :=
  match store path with
  | ReadResult.failed => none
  | ReadResult.notFound => none
  | ReadResult.found sec =>
    match dataMap sec with
    | none => none
    | some m => some (dispatchFields s path m)

/-- The `for path := range a.secretSync.receivers` loop of
`renewSecretPaths`, over an explicit path list.  A panic records the read
that triggered it and aborts the remaining iterations. -/
def renewPathsFrom (s : SecretSync) (store : Store) : List Location → PassResult
  | [] => PassResult.completed []
  | path :: rest =>
    match renewOnePath s store path with
    | none => PassResult.panicked [Event.read path]
    | some evs =>
      match renewPathsFrom s store rest with
      | PassResult.panicked es => PassResult.panicked (Event.read path :: (evs ++ es))
      | PassResult.completed es => PassResult.completed (Event.read path :: (evs ++ es))

/-- `renewSecretPaths` from the source: iterate over every registered
location, read it and dispatch its fields. -/
def renewSecretPaths (a : Agent) : PassResult :=
  renewPathsFrom a.secretSync a.store (a.secretSync.receivers.map Prod.fst)

/-- Outcome of `Run`: either the synchronous initial pass panicked, or `Run`
returned to the caller with the pass's events having occurred and the given
error value. -/
inductive RunResult
  | panicked (events : List Event)
  | returned (events : List Event) (err : Option Unit)
deriving DecidableEq

/-- `Run` from the source: launch `renewAuthToken` and `renewSecrets` as
goroutines (their results, passed here as `leaseLoopResult` and
`secretLoopResult`, are discarded by the `go` statements), run one
synchronous `renewSecretPaths` pass, then `return nil`. -/
def Run (a : Agent) (_leaseLoopResult _secretLoopResult : Option Unit) : RunResult :=
  match renewSecretPaths a with
  | PassResult.panicked es => RunResult.panicked es
  | PassResult.completed es => RunResult.returned es none

/-- Projection of a `RunResult` onto the value `Run` returned:
`none` when it panicked (no value was returned), `some e` when it returned
`e` (`none` standing for Go's `nil` error). -/
def returnedErr : RunResult → Option (Option Unit)
  | RunResult.panicked _ => none
  | RunResult.returned _ e => some e

/-- The filesystem and decoder oracle used by `loadConfig`:
`statNotExist f` is `os.IsNotExist(err)` for `_, err := os.Stat(f)`, and
`decodeFile` is `hclsimple.DecodeFile`. -/
structure FileSystem where
  statNotExist : String → Bool
  decodeFile : String → Except Unit Config

/-- `loadConfig` from the source: when the stat error is not a not-exist
error the file is decoded (and a decode error returned); when the file does
not exist the guard `!os.IsNotExist(err)` is false, the block is skipped and
`nil` is returned with `a.config` still nil (modelled as `ok none`). -/
def loadConfig (fs : FileSystem) (filename : String) : Except Unit (Option Config) :=
  if fs.statNotExist filename then
    Except.ok none
  else
    match fs.decodeFile filename with
    | Except.error e => Except.error e
    | Except.ok c => Except.ok (some c)

/-- The `vault.Secret` returned by `Login`, restricted to what the source
uses afterwards: the result of `secret.TokenID()`. -/
structure AuthSecret where
  tokenIdResult : Except Unit String

/-- Network interactions with the store recorded during construction:
a `Login` round-trip for the given auth method.  Client construction
(`vault.NewClient`) and auth-method construction perform no network call
and record no event. -/
inductive NetEvent
  | login (method : String)
deriving DecidableEq

/-- The vault client oracle: whether `vault.NewClient` succeeds, whether the
method-specific auth constructor (`NewAppRoleAuth` / `NewLDAPAuth` /
`NewUserpassAuth`) succeeds, and what `Login` returns. -/
structure VaultAPI where
  newClientOk : Bool
  newAuthMethodOk : String → Bool
  loginResult : String → Except Unit AuthSecret

/-- Body shared by the three `switch` cases of `createVaultAgent`: build the
method-specific auth object (no network), then `Login` (one network
round-trip, recorded as an event). -/
def authLogin (api : VaultAPI) (method : String) : Except Unit AuthSecret × List NetEvent :=
  if api.newAuthMethodOk method then
    (api.loginResult method, [NetEvent.login method])
  else
    (Except.error (), [])

/-- `createVaultAgent` from the source: create the client, switch on the
auth method (`"approle"`, `"ldap"`, `"userpass"` run `authLogin`; anything
else returns the "undefined vault authentication method" error with no
network call), then extract the token via `TokenID`. -/
def createVaultAgent (api : VaultAPI) (cfg : Config) : Except Unit String × List NetEvent :=
  if api.newClientOk then
    if cfg.vault.authMethod = "approle" ∨ cfg.vault.authMethod = "ldap" ∨
        cfg.vault.authMethod = "userpass" then
      match authLogin api cfg.vault.authMethod with
      | (Except.error e, evs) => (Except.error e, evs)
      | (Except.ok sec, evs) =>
        match sec.tokenIdResult with
        | Except.error e => (Except.error e, evs)
        | Except.ok tok => (Except.ok tok, evs)
    else
      (Except.error (), [])
  else
    (Except.error (), [])

/-- Result of `New`: a construction error (`failed`, Go `(nil, err)`),
a successfully built agent, or a panic.  The `panicked` case arises when
`loadConfig` left `a.config` nil (absent file) and `createVaultAgent`
dereferences it at `a.config.Vault.Server`. -/
inductive NewResult
  | panicked
  | failed
  | ok (a : Agent)

/-- `New` from the source, with the configuration file name taken from the
applied options: load the configuration (wrapping a load error), then
authenticate via `createVaultAgent` (wrapping its error).  On success the
agent holds the loaded configuration, a fresh `newSecretSync`, and the store
client.  The second component is the network-event trace of construction. -/
def New (fs : FileSystem) (configFile : String) (api : VaultAPI) (store : Store) :
    NewResult × List NetEvent :=
  match loadConfig fs configFile with
  | Except.error _ => (NewResult.failed, [])
  | Except.ok none => (NewResult.panicked, [])
  | Except.ok (some cfg) =>
    match createVaultAgent api cfg with
    | (Except.error _, evs) => (NewResult.failed, evs)
    | (Except.ok _, evs) => (NewResult.ok ⟨cfg, newSecretSync, store⟩, evs)

/-- Two's-complement wrap-around of a 64-bit signed product, as Go's
`int64` multiplication behaves (the literals are 2^63 and 2^64). -/
def int64wrap (x : Int) : Int :=
  (x + 9223372036854775808) % 18446744073709551616 - 9223372036854775808

/-- The `sleepDuration := time.Duration(period) * time.Second` line of
`renewSecrets`: the configured period, in nanoseconds, with `int64`
wrap-around. -/
def sleepDurationNs (a : Agent) : Int :=
  int64wrap (a.config.vault.renewSecretsPeriod * 1000000000)

/-- Events the `renewAuthToken` select loop reacts to: context cancellation,
a terminal event on the watcher's `DoneCh` carrying an error value (`none`
standing for a nil error), and a successful renewal on `RenewCh`. -/
inductive LeaseEvent
  | cancel
  | doneEvent (err : Option Unit)
  | renewEvent (remaining : Int)
deriving DecidableEq

/-- The `for { select { ... } }` loop of `renewAuthToken` over the stream of
delivered events: cancellation returns nil, a `DoneCh` event returns its
error value, a renewal event loops.  `none` means the event stream was
exhausted with the loop still watching. -/
def renewAuthTokenLoop : List LeaseEvent → Option (Option Unit)
  | [] => none
  | LeaseEvent.cancel :: _ => some none
  | LeaseEvent.doneEvent e :: _ => some e
  | LeaseEvent.renewEvent _ :: rest => renewAuthTokenLoop rest

/-- How `renewAuthToken` exited: the returned error value and whether the
deferred `authTokenWatcher.Stop()` and `wg.Done()` ran. -/
structure LoopExit where
  err : Option Unit
  watcherStopped : Bool
  wgDone : Bool
deriving DecidableEq

/-- `renewAuthToken` from the source: `wg.Done()` is deferred first; if the
lifetime watcher cannot be created the function returns an error before the
watcher's `Stop` is deferred; otherwise the watcher is started, `Stop` is
deferred, and the select loop runs.  `none` means the loop is still
running. -/
def renewAuthToken (watcherInitOk : Bool) (events : List LeaseEvent) : Option LoopExit :=
  if watcherInitOk then
    match renewAuthTokenLoop events with
    | some e => some ⟨e, true, true⟩
    | none => none
  else
    some ⟨some (), false, true⟩

/-- Events the `renewSecrets` select loop reacts to: context cancellation
and the periodic timer firing. -/
inductive RefreshEvent
  | cancel
  | timerFire
deriving DecidableEq

/-- How `renewSecrets` exited: a clean return (with its error value and the
deferred `wg.Done()` having run), a panic propagated out of a refresh pass,
or still running with the event stream exhausted. -/
inductive RefreshResult
  | exited (err : Option Unit) (wgDone : Bool)
  | panicked
  | running
deriving DecidableEq

/-- The `for { select { ... } }` loop of `renewSecrets`: cancellation
returns nil (the deferred `wg.Done()` runs), a timer fire runs one
`renewSecretPaths` pass and only then resets the timer and loops. -/
def renewSecrets (a : Agent) : List RefreshEvent → RefreshResult
  | [] => RefreshResult.running
  | RefreshEvent.cancel :: _ => RefreshResult.exited none true
  | RefreshEvent.timerFire :: rest =>
    match renewSecretPaths a with
    | PassResult.panicked _ => RefreshResult.panicked
    | PassResult.completed _ => renewSecrets a rest

/-- Timing model of `renewSecrets`' timer discipline.  At time `t` the timer
is armed with duration `P` (`time.NewTimer` at loop entry, `timer.Reset`
thereafter); it fires no earlier than `P` later, at `t + P + eps` for a
scheduling slack `eps ≥ 0`; the pass then runs for `d` and only at its end,
`t + P + eps + d`, is the timer re-armed.  Given the slack/duration pair of
each pass, this returns the (start, end) interval of every pass. -/
def passIntervals (P : Nat) : Nat → List (Nat × Nat) → List (Nat × Nat)
  | _, [] => []
  | t, (eps, d) :: rest =>
    (t + P + eps, t + P + eps + d) :: passIntervals P (t + P + eps + d) rest

/-- Events of a pass outcome, completed or not. -/
def passEvents : PassResult → List Event
  | PassResult.panicked es => es
  | PassResult.completed es => es

/-- Observer used to state dispatch ordering: project an event onto the
receiver it updated, when the event is an update of location `id` at field
`k`. -/
def consumerForField (id : Location) (k : String) : Event → Option SecretReceiver
  | Event.read _ => none
  | Event.update r id2 k2 _ => if id2 = id ∧ k2 = k then some r else none

/-- Sample configuration with a negative renewal period. -/
def cfg1 : Config := ⟨⟨"http://localhost:8200", "userpass", "go", "secret", -5⟩⟩

/-- Sample store whose read of `"secrets/a"` fails and whose other reads
succeed with one field. -/
def storeFailA : Store := fun path =>
  if path = "secrets/a" then ReadResult.failed
  else ReadResult.found ⟨[("data", DataVal.fieldMap [("user", GoVal.str "alice")])]⟩

/-- Sample agent with two registered locations, the first of which has a
failing store read. -/
def agentTwoLoc : Agent := ⟨cfg1, ⟨[("secrets/a", [1]), ("secrets/b", [2])]⟩, storeFailA⟩

/-- Filesystem oracle on which every stat reports a missing file. -/
def fsAbsent : FileSystem := ⟨fun _ => true, fun _ => Except.error ()⟩

/-- Vault client oracle on which construction, auth-method construction,
login and token extraction all succeed. -/
def api1 : VaultAPI := ⟨true, fun _ => true, fun _ => Except.ok ⟨Except.ok "tok"⟩⟩

/-- Sample store with no secrets. -/
def store1 : Store := fun _ => ReadResult.notFound

/-- Filesystem oracle on which the file exists and decodes to `cfg1`. -/
def fs1 : FileSystem := ⟨fun _ => false, fun _ => Except.ok cfg1⟩

/-- Sample configuration with the unrecognized auth method `"kerberos"`. -/
def cfgKerb : Config := ⟨⟨"http://localhost:8200", "kerberos", "go", "secret", 30⟩⟩

/-- Filesystem oracle on which the file exists and decodes to `cfgKerb`. -/
def fs2 : FileSystem := ⟨fun _ => false, fun _ => Except.ok cfgKerb⟩

/-- Sample agent with one registered location and a store that returns one
field for every path. -/
def agentW : Agent :=
  ⟨cfg1, ⟨[("loc", [7])]⟩,
    fun _ => ReadResult.found ⟨[("data", DataVal.fieldMap [("user", GoVal.str "alice")])]⟩⟩

/-- Sample receivers structure with two receivers registered for `"L"`. -/
def sync2 : SecretSync := ⟨[("L", [3, 4])]⟩

/-- Sample field map with two fields. -/
def fields2 : List (String × GoVal) := [("user", GoVal.str "a"), ("pw", GoVal.str "b")]

theorem lookupReceivers_mapUpdate_self (rs : List (Location × List SecretReceiver))
    (id : Location) (r : SecretReceiver) :
    lookupReceivers (mapUpdate rs id r) id = lookupReceivers rs id ++ [r] := by
  induction rs with
  | nil => simp [mapUpdate, lookupReceivers]
  | cons p rest ih =>
    by_cases h : p.1 = id
    · simp [mapUpdate, lookupReceivers, h]
    · simp [mapUpdate, lookupReceivers, h, ih]

theorem lookupReceivers_mapUpdate_ne (rs : List (Location × List SecretReceiver))
    (id id2 : Location) (r : SecretReceiver) (h : id2 ≠ id) :
    lookupReceivers (mapUpdate rs id r) id2 = lookupReceivers rs id2 := by
  have h2 : id ≠ id2 := fun hh => h hh.symm
  induction rs with
  | nil => simp [mapUpdate, lookupReceivers, h2]
  | cons p rest ih =>
    by_cases hp : p.1 = id
    · have hne : p.1 ≠ id2 := by rw [hp]; exact h2
      simp [mapUpdate, lookupReceivers, hp, hne, h, h2]
    · by_cases hq : p.1 = id2
      · simp [mapUpdate, lookupReceivers, hp, hq, h, h2]
      · simp [mapUpdate, lookupReceivers, hp, hq, h, h2, ih]

theorem mem_dispatchFields (s : SecretSync) (id : Location)
    (fields : List (String × GoVal)) (c : SecretReceiver) (k : String) (v : GoVal)
    (hc : c ∈ lookupReceivers s.receivers id) (hf : (k, v) ∈ fields) :
    Event.update c id k v ∈ dispatchFields s id fields := by
  unfold dispatchFields
  refine List.mem_flatMap.mpr ⟨(k, v), hf, ?_⟩
  unfold setSecret
  exact List.mem_map.mpr ⟨c, hc, rfl⟩

/-- C6: `Register(location, consumer)` appends the consumer to the
location's registration list (creating the list when absent), leaves every
other location's list unchanged, does not detect duplicates (a second
identical registration appends a second copy), and a consumer registered
for `L` is included in every subsequent dispatch to `L`. -/
theorem register_appends_and_dispatch_includes (s : SecretSync) (id id2 : Location)
    (c : SecretReceiver) :
    lookupReceivers (RegisterUpdateSecret s id c).receivers id
        = lookupReceivers s.receivers id ++ [c]
    ∧ (id2 ≠ id →
        lookupReceivers (RegisterUpdateSecret s id c).receivers id2
          = lookupReceivers s.receivers id2)
    ∧ lookupReceivers
          (RegisterUpdateSecret (RegisterUpdateSecret s id c) id c).receivers id
        = lookupReceivers s.receivers id ++ [c, c]
    ∧ (∀ fields k v, (k, v) ∈ fields →
        Event.update c id k v ∈ dispatchFields (RegisterUpdateSecret s id c) id fields) := by
  refine ⟨lookupReceivers_mapUpdate_self s.receivers id c, ?_, ?_, ?_⟩
  · intro hne
    exact lookupReceivers_mapUpdate_ne s.receivers id id2 c hne
  · rw [RegisterUpdateSecret, RegisterUpdateSecret]
    rw [lookupReceivers_mapUpdate_self, lookupReceivers_mapUpdate_self]
    simp
  · intro fields k v hf
    apply mem_dispatchFields
    · rw [RegisterUpdateSecret, lookupReceivers_mapUpdate_self]
      exact List.mem_append_right _ (List.mem_singleton.mpr rfl)
    · exact hf

/-- Witness for C6 at concrete inputs: registering receiver `0` for `"a"`
leaves `"b"` untouched and makes a dispatch of one field to `"a"` reach it. -/
theorem register_appends_and_dispatch_includes_witness :
    lookupReceivers (RegisterUpdateSecret ⟨[]⟩ "a" 0).receivers "b"
        = lookupReceivers (⟨[]⟩ : SecretSync).receivers "b"
    ∧ Event.update 0 "a" "user" (GoVal.str "x")
        ∈ dispatchFields (RegisterUpdateSecret ⟨[]⟩ "a" 0) "a" [("user", GoVal.str "x")] :=
  ⟨(register_appends_and_dispatch_includes ⟨[]⟩ "a" "b" 0).2.1 (by decide),
   (register_appends_and_dispatch_includes ⟨[]⟩ "a" "b" 0).2.2.2
     [("user", GoVal.str "x")] "user" (GoVal.str "x") (by simp)⟩

theorem dispatchFields_cons (s : SecretSync) (id : Location) (kv : String × GoVal)
    (rest : List (String × GoVal)) :
    dispatchFields s id (kv :: rest)
      = setSecret s id kv.1 kv.2 ++ dispatchFields s id rest := by
  simp [dispatchFields]

theorem count_dispatchFields (s : SecretSync) (id : Location)
    (fields : List (String × GoVal)) (c : SecretReceiver) (k : String) (v : GoVal) :
    (dispatchFields s id fields).count (Event.update c id k v)
      = fields.count (k, v) * (lookupReceivers s.receivers id).count c := by
  induction fields with
  | nil => simp [dispatchFields]
  | cons kv rest ih =>
    rw [dispatchFields_cons, List.count_append, ih]
    by_cases hkv : kv = (k, v)
    · subst hkv
      have hinj : Function.Injective (fun r => Event.update r id k v) := by
        intro a b hab
        simpa using hab
      rw [setSecret, List.count_map_of_injective _ _ hinj]
      rw [List.count_cons_self]
      ring
    · have hz : (setSecret s id kv.1 kv.2).count (Event.update c id k v) = 0 := by
        rw [List.count_eq_zero]
        intro hmem
        rcases List.mem_map.mp hmem with ⟨r, _, heq⟩
        have : kv.1 = k ∧ kv.2 = v := by
          constructor <;> · injection heq
        exact hkv (Prod.ext this.1 this.2)
      rw [hz, List.count_cons_of_ne (fun hh => hkv hh.symm)]
      ring

theorem filterMap_consumerForField_map (id : Location) (k k2 : String) (v2 : GoVal)
    (l : List SecretReceiver) :
    (l.map (fun r => Event.update r id k2 v2)).filterMap (consumerForField id k)
      = if k2 = k then l else [] := by
  induction l with
  | nil => simp
  | cons r rest ih =>
    by_cases h : k2 = k
    · have hc : consumerForField id k (Event.update r id k2 v2) = some r := by
        simp [consumerForField, h]
      rw [List.map_cons, List.filterMap_cons, hc, ih, if_pos h, if_pos h]
    · have hc : consumerForField id k (Event.update r id k2 v2) = none := by
        simp [consumerForField, h]
      rw [List.map_cons, List.filterMap_cons, hc, ih, if_neg h, if_neg h]

theorem filterMap_dispatchFields_of_not_key (s : SecretSync) (id : Location) (k : String)
    (fields : List (String × GoVal)) (h : ∀ kv ∈ fields, kv.1 ≠ k) :
    (dispatchFields s id fields).filterMap (consumerForField id k) = [] := by
  induction fields with
  | nil => simp [dispatchFields]
  | cons kv rest ih =>
    rw [dispatchFields_cons, List.filterMap_append]
    rw [setSecret, filterMap_consumerForField_map]
    rw [if_neg (h kv (List.mem_cons_self kv rest))]
    rw [ih (fun kv2 h2 => h kv2 (List.mem_cons_of_mem kv h2))]
    rfl

theorem filterMap_dispatchFields_eq_receivers (s : SecretSync) (id : Location)
    (k : String) (v : GoVal) (fields : List (String × GoVal))
    (hnd : (fields.map Prod.fst).Nodup) (hmem : (k, v) ∈ fields) :
    (dispatchFields s id fields).filterMap (consumerForField id k)
      = lookupReceivers s.receivers id := by
  induction fields with
  | nil => cases hmem
  | cons kv rest ih =>
    rw [dispatchFields_cons, List.filterMap_append]
    rw [setSecret, filterMap_consumerForField_map]
    rw [List.map_cons, List.nodup_cons] at hnd
    by_cases hk : kv.1 = k
    · have hknotin : k ∉ rest.map Prod.fst := by
        rw [← hk]
        exact hnd.1
      have hrest : (dispatchFields s id rest).filterMap (consumerForField id k) = [] := by
        apply filterMap_dispatchFields_of_not_key
        intro kv2 h2 he
        exact hknotin (by rw [← he]; exact List.mem_map_of_mem Prod.fst h2)
      rw [if_pos hk, hrest, List.append_nil]
    · have hmem2 : (k, v) ∈ rest := by
        rcases List.mem_cons.mp hmem with heq | hin
        · exact absurd (by rw [← heq]) hk
        · exact hin
      rw [if_neg hk, List.nil_append]
      exact ih hnd.2 hmem2

/-- C4: dispatching location `id` with a field map invokes each registered
receiver's update exactly once per field (counted with the receiver's and
the field's multiplicities), invokes no receiver that is not registered for
`id`, is a no-op when no receiver is registered, and per field the updates
run through the receivers in registration order. -/
theorem dispatch_per_field_in_registration_order (s : SecretSync) (id : Location)
    (fields : List (String × GoVal)) (c : SecretReceiver) (k : String) (v : GoVal) :
    (dispatchFields s id fields).count (Event.update c id k v)
        = fields.count (k, v) * (lookupReceivers s.receivers id).count c
    ∧ (c ∉ lookupReceivers s.receivers id →
        ∀ k2 v2, Event.update c id k2 v2 ∉ dispatchFields s id fields)
    ∧ (lookupReceivers s.receivers id = [] → dispatchFields s id fields = [])
    ∧ ((fields.map Prod.fst).Nodup → (k, v) ∈ fields →
        (dispatchFields s id fields).filterMap (consumerForField id k)
          = lookupReceivers s.receivers id) := by
  refine ⟨count_dispatchFields s id fields c k v, ?_, ?_, ?_⟩
  · intro hnotin k2 v2
    rw [← List.count_eq_zero, count_dispatchFields]
    rw [List.count_eq_zero.mpr hnotin]
    ring
  · intro hempty
    have : ∀ l : List (String × GoVal), dispatchFields s id l = [] := by
      intro l
      induction l with
      | nil => rfl
      | cons kv rest ih2 =>
        simp [dispatchFields_cons, setSecret, hempty, ih2]
    exact this fields
  · intro hnd hmem
    exact filterMap_dispatchFields_eq_receivers s id k v fields hnd hmem

/-- Witness for C4 at concrete inputs: two receivers for `"L"`, two fields;
receiver `3` gets the `"user"` field once, unregistered receiver `9` gets
nothing, an empty registration list dispatches nothing, and the `"user"`
updates run through `[3, 4]` in registration order. -/
theorem dispatch_per_field_in_registration_order_witness :
    (dispatchFields sync2 "L" fields2).count (Event.update 3 "L" "user" (GoVal.str "a")) = 1
    ∧ Event.update 9 "L" "user" (GoVal.str "a") ∉ dispatchFields sync2 "L" fields2
    ∧ dispatchFields ⟨[]⟩ "L" fields2 = []
    ∧ (dispatchFields sync2 "L" fields2).filterMap (consumerForField "L" "user") = [3, 4] := by
  refine ⟨?_, ?_, ?_, ?_⟩
  · rw [(dispatch_per_field_in_registration_order sync2 "L" fields2 3 "user" (GoVal.str "a")).1]
    decide
  · exact (dispatch_per_field_in_registration_order sync2 "L" fields2 9 "user"
      (GoVal.str "a")).2.1 (by decide) "user" (GoVal.str "a")
  · exact (dispatch_per_field_in_registration_order ⟨[]⟩ "L" fields2 3 "user"
      (GoVal.str "a")).2.2.1 rfl
  · rw [(dispatch_per_field_in_registration_order sync2 "L" fields2 3 "user"
      (GoVal.str "a")).2.2.2 (by decide) (by decide)]
    decide

theorem renewPathsFrom_completed_mem (s : SecretSync) (store : Store)
    (paths : List Location) (es : List Event)
    (h : renewPathsFrom s store paths = PassResult.completed es) :
    ∀ p ∈ paths, Event.read p ∈ es ∧
      ∀ evs, renewOnePath s store p = some evs → ∀ ev ∈ evs, ev ∈ es := by
  induction paths generalizing es with
  | nil => intro p hp; cases hp
  | cons q rest ih =>
    intro p hp
    rw [renewPathsFrom] at h
    cases h1 : renewOnePath s store q with
    | none => rw [h1] at h; cases h
    | some evs1 =>
      rw [h1] at h
      cases h2 : renewPathsFrom s store rest with
      | panicked es2 => rw [h2] at h; cases h
      | completed es2 =>
        rw [h2] at h
        injection h with h3
        subst h3
        rcases List.mem_cons.mp hp with rfl | hp2
        · refine ⟨List.mem_cons_self _ _, ?_⟩
          intro evs hevs ev hev
          rw [h1] at hevs
          injection hevs with h4
          subst h4
          exact List.mem_cons_of_mem _ (List.mem_append_left _ hev)
        · obtain ⟨ha, hb⟩ := ih es2 h2 p hp2
          refine ⟨List.mem_cons_of_mem _ (List.mem_append_right _ ha), ?_⟩
          intro evs hevs ev hev
          exact List.mem_cons_of_mem _ (List.mem_append_right _ (hb evs hevs ev hev))

/-- C3: when `Run` returns, the synchronous initial refresh pass has
completed: for every location registered before the call a store read
appears in the pass's event trace, and for every location whose read
succeeded with a data map, every field of that map was dispatched to every
receiver registered for that location. -/
theorem run_completes_initial_pass (a : Agent) (r1 r2 : Option Unit)
    (es : List Event) (e : Option Unit)
    (h : Run a r1 r2 = RunResult.returned es e) :
    ∀ p ∈ a.secretSync.receivers.map Prod.fst,
      Event.read p ∈ es ∧
      ∀ sec m, a.store p = ReadResult.found sec → dataMap sec = some m →
        ∀ c ∈ lookupReceivers a.secretSync.receivers p, ∀ kv ∈ m,
          Event.update c p kv.1 kv.2 ∈ es := by
  have hc : renewSecretPaths a = PassResult.completed es := by
    unfold Run at h
    cases hr : renewSecretPaths a with
    | panicked es2 => rw [hr] at h; cases h
    | completed es2 =>
      rw [hr] at h
      injection h with h1 h2
      rw [h1]
  intro p hp
  rw [renewSecretPaths] at hc
  obtain ⟨hread, hdisp⟩ := renewPathsFrom_completed_mem a.secretSync a.store _ es hc p hp
  refine ⟨hread, ?_⟩
  intro sec m hsec hm c hcmem kv hkv
  have hone : renewOnePath a.secretSync a.store p
      = some (dispatchFields a.secretSync p m) := by
    rw [renewOnePath, hsec]
    simp [hm]
  refine hdisp _ hone _ ?_
  exact mem_dispatchFields a.secretSync p m c kv.1 kv.2 hcmem (by simpa using hkv)

/-- Witness for C3 at concrete inputs: one registered location `"loc"` with
receiver `7`; `Run` returns with the read of `"loc"` and the update of
receiver `7` in the trace. -/
theorem run_completes_initial_pass_witness :
    Event.read "loc"
        ∈ [Event.read "loc", Event.update 7 "loc" "user" (GoVal.str "alice")]
    ∧ Event.update 7 "loc" "user" (GoVal.str "alice")
        ∈ [Event.read "loc", Event.update 7 "loc" "user" (GoVal.str "alice")] := by
  have h := run_completes_initial_pass agentW none none
    [Event.read "loc", Event.update 7 "loc" "user" (GoVal.str "alice")] none
    (by decide) "loc" (by decide)
  refine ⟨h.1, ?_⟩
  have h2 := h.2 ⟨[("data", DataVal.fieldMap [("user", GoVal.str "alice")])]⟩
    [("user", GoVal.str "alice")] rfl rfl 7 (by decide)
    ("user", GoVal.str "alice") (by decide)
  exact h2

/-- C9: `Run` returns `nil` whenever it returns: its result does not depend
on the error values produced by the two loop goroutines (they are discarded
by the `go` statements), and whenever a value is returned at all it is the
nil error. -/
theorem run_always_returns_nil (a : Agent) (r1 r2 : Option Unit) :
    Run a r1 r2 = Run a none none
    ∧ (returnedErr (Run a r1 r2) = none ∨ returnedErr (Run a r1 r2) = some none) := by
  refine ⟨rfl, ?_⟩
  cases h : renewSecretPaths a <;> simp [Run, returnedErr, h]

/-- C1 (refutation on the code): a failed store read during a refresh pass
is not skipped.  With locations `"secrets/a"` (read fails) and
`"secrets/b"` registered, the pass panics on the nil secret returned for
`"secrets/a"` (`secret.Data` is dereferenced after the error was discarded)
and `"secrets/b"` is never read or dispatched. -/
theorem read_failure_aborts_pass :
    renewSecretPaths agentTwoLoc = PassResult.panicked [Event.read "secrets/a"]
    ∧ Event.read "secrets/b" ∉ passEvents (renewSecretPaths agentTwoLoc) := by
  constructor
  · decide
  · decide

/-- C2 (refutation on the code): with an absent configuration file,
`loadConfig` takes the `!os.IsNotExist(err)` guard the wrong way, skips
decoding and returns a nil error with `a.config` still nil; `New` then
proceeds into `createVaultAgent`, which panics dereferencing
`a.config.Vault.Server`, so `New` neither returns an error nor an agent. -/
theorem absent_config_new_panics :
    loadConfig fsAbsent "vault-config.hcl" = Except.ok none
    ∧ (New fsAbsent "vault-config.hcl" api1 store1).1 = NewResult.panicked :=
  ⟨rfl, rfl⟩

/-- C5: with an otherwise valid configuration whose auth method is
`"kerberos"`, `createVaultAgent` hits the default switch case and fails with
no `Login` network call recorded, and `New` returns the construction error
(no agent) with an empty network trace. -/
theorem kerberos_fails_before_network (fs : FileSystem) (file : String) (api : VaultAPI)
    (store : Store) (cfg : Config)
    (hload : loadConfig fs file = Except.ok (some cfg))
    (hmethod : cfg.vault.authMethod = "kerberos") :
    createVaultAgent api cfg = (Except.error (), [])
    ∧ New fs file api store = (NewResult.failed, []) := by
  have hne : ¬("kerberos" = "approle" ∨ "kerberos" = "ldap" ∨ "kerberos" = "userpass") := by
    decide
  have hca : createVaultAgent api cfg = (Except.error (), []) := by
    unfold createVaultAgent
    rw [hmethod]
    by_cases hb : api.newClientOk
    · rw [if_pos hb, if_neg hne]
    · rw [if_neg hb]
  refine ⟨hca, ?_⟩
  simp [New, hload, hca]

/-- Witness for C5 at concrete inputs: a filesystem decoding to the
kerberos configuration makes `New` fail with no network call. -/
theorem kerberos_fails_before_network_witness :
    loadConfig fs2 "config.hcl" = Except.ok (some cfgKerb)
    ∧ New fs2 "config.hcl" api1 store1 = (NewResult.failed, []) :=
  ⟨rfl, (kerberos_fails_before_network fs2 "config.hcl" api1 store1 cfgKerb rfl rfl).2⟩

/-- C7: with a renewal period `P`, consecutive refresh-pass intervals never
overlap (the next pass starts no earlier than the previous pass's end,
because the timer is re-armed only after the pass completes) and their
start times are at least `P` apart. -/
theorem refresh_passes_separated (P t : Nat) (slack : List (Nat × Nat)) :
    List.Chain' (fun i j => i.2 ≤ j.1 ∧ i.1 + P ≤ j.1) (passIntervals P t slack) := by
  induction slack generalizing t with
  | nil => simp [passIntervals]
  | cons hd tl ih =>
    obtain ⟨eps, d⟩ := hd
    rw [passIntervals, List.chain'_cons']
    refine ⟨?_, ih _⟩
    intro y hy
    cases tl with
    | nil => simp [passIntervals] at hy
    | cons hd2 tl2 =>
      obtain ⟨e2, d2⟩ := hd2
      rw [passIntervals] at hy
      simp only [List.head?_cons, Option.mem_def, Option.some.injEq] at hy
      subst hy
      constructor <;> · simp only [] ; omega

theorem renewAuthTokenLoop_renews_then_cancel (rs : List Int) :
    renewAuthTokenLoop (rs.map LeaseEvent.renewEvent ++ [LeaseEvent.cancel]) = some none := by
  induction rs with
  | nil => rfl
  | cons x xs ih => simpa [renewAuthTokenLoop] using ih

theorem renewSecrets_fires_then_cancel (a : Agent) (es : List Event)
    (hpass : renewSecretPaths a = PassResult.completed es) (n : Nat) :
    renewSecrets a (List.replicate n RefreshEvent.timerFire ++ [RefreshEvent.cancel])
      = RefreshResult.exited none true := by
  induction n with
  | zero => rfl
  | succ k ih =>
    rw [List.replicate_succ, List.cons_append, renewSecrets, hpass]
    exact ih

/-- C8: on the cancellation signal, after any number of renewal events the
lease renewal loop exits returning nil with the watcher stopped and its
wait-group completion signalled, and after any number of (completed)
refresh passes the secret refresh loop exits returning nil with its
wait-group completion signalled. -/
theorem cancellation_clean_exit (rs : List Int) (a : Agent) (n : Nat) (es : List Event)
    (hpass : renewSecretPaths a = PassResult.completed es) :
    renewAuthToken true (rs.map LeaseEvent.renewEvent ++ [LeaseEvent.cancel])
        = some ⟨none, true, true⟩
    ∧ renewSecrets a (List.replicate n RefreshEvent.timerFire ++ [RefreshEvent.cancel])
        = RefreshResult.exited none true := by
  constructor
  · rw [renewAuthToken, if_pos rfl, renewAuthTokenLoop_renews_then_cancel]
  · exact renewSecrets_fires_then_cancel a es hpass n

/-- Witness for C8 at concrete inputs: one renewal event then cancel for
the lease loop, one completed pass then cancel for the refresh loop. -/
theorem cancellation_clean_exit_witness :
    renewAuthToken true [LeaseEvent.renewEvent 5, LeaseEvent.cancel]
        = some ⟨none, true, true⟩
    ∧ renewSecrets agentW [RefreshEvent.timerFire, RefreshEvent.cancel]
        = RefreshResult.exited none true := by
  have h := cancellation_clean_exit [5] agentW 1
    [Event.read "loc", Event.update 7 "loc" "user" (GoVal.str "alice")] (by decide)
  simpa using h

/-- C10: `New` does not validate `renew_secrets_period`: with a decodable
configuration whose period is non-positive and successful authentication,
`New` returns the agent, and the `sleepDuration` computed by `renewSecrets`
is that period converted verbatim to seconds (whenever the nanosecond
product fits in an `int64`, which holds for every period down to
`-9223372036` seconds). -/
theorem nonpositive_period_accepted_verbatim (fs : FileSystem) (file : String)
    (api : VaultAPI) (store : Store) (cfg : Config) (tok : String)
    (hload : loadConfig fs file = Except.ok (some cfg))
    (hperiod : cfg.vault.renewSecretsPeriod ≤ 0)
    (hauth : (createVaultAgent api cfg).1 = Except.ok tok) :
    (New fs file api store).1 = NewResult.ok ⟨cfg, newSecretSync, store⟩
    ∧ (-9223372036 ≤ cfg.vault.renewSecretsPeriod →
        sleepDurationNs ⟨cfg, newSecretSync, store⟩
          = cfg.vault.renewSecretsPeriod * 1000000000) := by
  constructor
  · rcases hc : createVaultAgent api cfg with ⟨r, evs⟩
    rw [hc] at hauth
    simp only [] at hauth
    rw [hauth] at hc
    simp [New, hload, hc]
  · intro hlow
    unfold sleepDurationNs int64wrap
    simp only []
    omega

/-- Witness for C10 at concrete inputs: a configuration with period `-5`
passes `New` and yields a `sleepDuration` of `-5` seconds in nanoseconds. -/
theorem nonpositive_period_accepted_verbatim_witness :
    loadConfig fs1 "config.hcl" = Except.ok (some cfg1)
    ∧ cfg1.vault.renewSecretsPeriod ≤ 0
    ∧ (New fs1 "config.hcl" api1 store1).1 = NewResult.ok ⟨cfg1, newSecretSync, store1⟩
    ∧ sleepDurationNs ⟨cfg1, newSecretSync, store1⟩ = -5000000000 := by
  have h := nonpositive_period_accepted_verbatim fs1 "config.hcl" api1 store1 cfg1 "tok"
    rfl (by decide) rfl
  refine ⟨rfl, by decide, h.1, ?_⟩
  rw [h.2 (by decide)]
  decide

end VaultSync
